import Mathlib

/-!
Shallow embedding of the conjugation engine and typed builders of the jpv
Japanese dictionary engine (crates/lib/src/inflection/conjugate.rs and the
JMdict / KANJIDIC2 element builders), together with proofs of the spec
claims about them.

Machine integers that matter (`as u8` truncation) are modelled with `% 256`
on `Nat`; the fixed_map feature set is modelled as a bitmask `Nat`, exactly
as the source's bitset representation.
-/

/-- Whether `s` ends with `suffix`, computed on the character lists so the
definition reduces inside the kernel. -/
def endsWithStr (s suffix : String) : Bool :=
  suffix.data.isSuffixOf s.data

/-- `s` without its last `n` characters (Rust iterates characters, so the
count is in characters, not bytes). -/
def dropRightStr (s : String) (n : Nat) : String :=
  ⟨s.data.take (s.data.length - n)⟩

/-- Option-returning suffix stripper, mirroring Rust's `str::strip_suffix`:
returns the string with the suffix removed when it ends with it. -/
def stripSuffix (s suffix : String) : Option String :=
  if endsWithStr s suffix then some (dropRightStr s suffix.data.length) else none

/-- The closed inflection-feature enum, in the order the spec lists it:
Past, Negative, Polite, Te, Short, Causative, Passive, Potential,
Volitional, Imperative, Conditional, Chau, TeIru, TeAru, TeIku, TeKuru,
TeShimau, TeOku. -/
inductive Infl where
  | Past
  | Negative
  | Polite
  | Te
  | Short
  | Causative
  | Passive
  | Potential
  | Volitional
  | Imperative
  | Conditional
  | Chau
  | TeIru
  | TeAru
  | TeIku
  | TeKuru
  | TeShimau
  | TeOku
deriving DecidableEq, Repr

/-- Bit index of a feature inside the bitset. -/
def Infl.idx : Infl → Nat
  | .Past => 0
  | .Negative => 1
  | .Polite => 2
  | .Te => 3
  | .Short => 4
  | .Causative => 5
  | .Passive => 6
  | .Potential => 7
  | .Volitional => 8
  | .Imperative => 9
  | .Conditional => 10
  | .Chau => 11
  | .TeIru => 12
  | .TeAru => 13
  | .TeIku => 14
  | .TeKuru => 15
  | .TeShimau => 16
  | .TeOku => 17

/-- A set of inflection features, represented as a bitmask exactly like the
source's `fixed_map::Set` over the feature enum. -/
abbrev InflSet := Nat

/-- Membership in a feature bitset. -/
def InflSet.mem (s : InflSet) (f : Infl) : Bool :=
  s.testBit f.idx

/-- Build a feature bitset from a list of features; the model of the
source's `inflect!` macro. -/
def inflect (fs : List Infl) : InflSet :=
  fs.foldl (fun a f => a ||| (1 <<< f.idx)) 0

/-- Model of `kana::Fragments`: a piece of conjugated text, carried in
parallel for the kanji and the reading surface.  The source keeps the
fragment lists; the claims only inspect the flattened text, so the model
stores the flattened kanji-side and reading-side strings.
`Fragments::new(k, r, s)` appends the shared suffix fragments `s` to both
sides. -/
structure Fragments where
  kanji : String
  reading : String
deriving DecidableEq, Repr

/-- `Fragments::new`: kanji fragments, reading fragments, shared suffix. -/
def Fragments.mk' (ks rs ss : List String) : Fragments :=
  { kanji := String.join ks ++ String.join ss
    reading := String.join rs ++ String.join ss }

/-- `Fragments::default()`. -/
def Fragments.empty : Fragments := { kanji := "", reading := "" }

/-- `Fragments::concat`: append further shared fragments to both sides. -/
def Fragments.concat (f : Fragments) (ss : List String) : Fragments :=
  { kanji := f.kanji ++ String.join ss, reading := f.reading ++ String.join ss }

/-- `Fragments::is_empty`. -/
def Fragments.isEmpty (f : Fragments) : Bool :=
  f.kanji.data.isEmpty && f.reading.data.isEmpty

/-- The inflection table: the source's `BTreeMap<Set<Inflection>, Fragments>`,
modelled as an association list with insert-or-replace semantics. -/
abbrev Infls := List (InflSet × Fragments)

/-- `BTreeMap::insert`: replace the value if the key is present, otherwise
add the binding. -/
def Infls.insertT (t : Infls) (k : InflSet) (v : Fragments) : Infls :=
  if t.any (fun p => p.1 == k) then
    t.map (fun p => if p.1 == k then (k, v) else p)
  else
    t ++ [(k, v)]

/-- `BTreeMap::get`. -/
def Infls.getT (t : Infls) (k : InflSet) : Option Fragments :=
  (t.find? (fun p => p.1 == k)).map (·.2)

/-- Insert a whole row list `(features, value)` in order. -/
def Infls.insertRows (t : Infls) (rows : List (InflSet × Fragments)) : Infls :=
  rows.foldl (fun t r => t.insertT r.1 r.2) t

/-- Modelled from the spec: one row of the godan rule table
(`godan.rs` is not under src/).  Each class supplies the dictionary ending,
te-form, te-stem, ta-form, the あ/い/え/お-row stem kana, and the de-flag
(sonorized te-form). -/
structure Godan where
  plain : String
  te : String
  te_stem : String
  past : String
  a : String
  i : String
  e : String
  o : String
  de : Bool
deriving DecidableEq, Repr

/-- Modelled from the spec: godan -う class. -/
def godan.U : Godan := ⟨"う", "って", "っ", "った", "わ", "い", "え", "お", false⟩

/-- Modelled from the spec: godan -つ class. -/
def godan.TSU : Godan := ⟨"つ", "って", "っ", "った", "た", "ち", "て", "と", false⟩

/-- Modelled from the spec: godan -る class. -/
def godan.RU : Godan := ⟨"る", "って", "っ", "った", "ら", "り", "れ", "ろ", false⟩

/-- Modelled from the spec: godan -く class. -/
def godan.KU : Godan := ⟨"く", "いて", "い", "いた", "か", "き", "け", "こ", false⟩

/-- Modelled from the spec: godan -ぐ class (sonorized: de-flag set). -/
def godan.GU : Godan := ⟨"ぐ", "いで", "い", "いだ", "が", "ぎ", "げ", "ご", true⟩

/-- Modelled from the spec: godan -む class (sonorized: de-flag set). -/
def godan.MU : Godan := ⟨"む", "んで", "ん", "んだ", "ま", "み", "め", "も", true⟩

/-- Modelled from the spec: godan -ぶ class (sonorized: de-flag set). -/
def godan.BU : Godan := ⟨"ぶ", "んで", "ん", "んだ", "ば", "び", "べ", "ぼ", true⟩

/-- Modelled from the spec: godan -ぬ class (sonorized: de-flag set). -/
def godan.NU : Godan := ⟨"ぬ", "んで", "ん", "んだ", "な", "に", "ね", "の", true⟩

/-- Modelled from the spec: godan -す class. -/
def godan.SU : Godan := ⟨"す", "して", "し", "した", "さ", "し", "せ", "そ", false⟩

/-- Modelled from the spec: the 行く exception — a -く godan verb with the
irregular te-form って (so 行って, not 行いて). -/
def godan.IKU : Godan := ⟨"く", "って", "っ", "った", "か", "き", "け", "こ", false⟩

/-- Modelled from the spec: the rows the `godan!` macro emits for a godan
class (the te-form row is inserted separately by the caller in the source).
Each row pairs a feature set with the ending appended to the stem. -/
def godanRows (g : Godan) : List (InflSet × String) :=
  [ (inflect [], g.plain)
  , (inflect [.Polite], g.i ++ "ます")
  , (inflect [.Negative], g.a ++ "ない")
  , (inflect [.Negative, .Polite], g.i ++ "ません")
  , (inflect [.Past], g.past)
  , (inflect [.Past, .Polite], g.i ++ "ました")
  , (inflect [.Past, .Negative], g.a ++ "なかった")
  , (inflect [.Past, .Negative, .Polite], g.i ++ "ませんでした")
  , (inflect [.Volitional], g.o ++ "う")
  , (inflect [.Imperative], g.e)
  , (inflect [.Conditional], g.e ++ "ば")
  , (inflect [.Potential], g.e ++ "る")
  , (inflect [.Passive], g.a ++ "れる")
  , (inflect [.Causative], g.a ++ "せる") ]

/-- Modelled from the spec: the rows the `ichidan!` macro emits — strip the
final る and append the ending (the te-form row is inserted separately by
the caller in the source). -/
def ichidanRows : List (InflSet × String) :=
  [ (inflect [], "る")
  , (inflect [.Polite], "ます")
  , (inflect [.Negative], "ない")
  , (inflect [.Negative, .Polite], "ません")
  , (inflect [.Past], "た")
  , (inflect [.Past, .Polite], "ました")
  , (inflect [.Past, .Negative], "なかった")
  , (inflect [.Past, .Negative, .Polite], "ませんでした")
  , (inflect [.Volitional], "よう")
  , (inflect [.Imperative], "ろ")
  , (inflect [.Conditional], "れば")
  , (inflect [.Potential], "られる")
  , (inflect [.Passive], "られる")
  , (inflect [.Causative], "させる") ]

/-- Modelled from the spec: the rows the `suru!` macro emits; each row is a
feature set, the kana prefix (す/し/さ/で alternation) and the ending. -/
def suruRows : List (InflSet × String × String) :=
  [ (inflect [.Te], "し", "て")
  , (inflect [], "す", "る")
  , (inflect [.Polite], "し", "ます")
  , (inflect [.Negative], "し", "ない")
  , (inflect [.Negative, .Polite], "し", "ません")
  , (inflect [.Past], "し", "た")
  , (inflect [.Past, .Polite], "し", "ました")
  , (inflect [.Past, .Negative], "し", "なかった")
  , (inflect [.Past, .Negative, .Polite], "し", "ませんでした")
  , (inflect [.Volitional], "し", "よう")
  , (inflect [.Imperative], "し", "ろ")
  , (inflect [.Conditional], "す", "れば")
  , (inflect [.Potential], "で", "きる")
  , (inflect [.Passive], "さ", "れる")
  , (inflect [.Causative], "さ", "せる") ]

/-- Modelled from the spec: the rows the `kuru!` macro emits, with the
来る reading alternation き・こ・く. -/
def kuruRows : List (InflSet × String × String) :=
  [ (inflect [.Te], "き", "て")
  , (inflect [], "く", "る")
  , (inflect [.Polite], "き", "ます")
  , (inflect [.Negative], "こ", "ない")
  , (inflect [.Negative, .Polite], "き", "ません")
  , (inflect [.Past], "き", "た")
  , (inflect [.Past, .Polite], "き", "ました")
  , (inflect [.Past, .Negative], "こ", "なかった")
  , (inflect [.Past, .Negative, .Polite], "こ", "ませんでした")
  , (inflect [.Volitional], "こ", "よう")
  , (inflect [.Imperative], "こ", "い")
  , (inflect [.Conditional], "く", "れば")
  , (inflect [.Potential], "こ", "られる")
  , (inflect [.Passive], "こ", "られる")
  , (inflect [.Causative], "こ", "させる") ]

/-- The closed part-of-speech enum, in the order the spec's data model
lists it (the source's `entities.rs` is not under src/; the variant names
follow the source's `conjugate.rs` match arms). -/
inductive PartOfSpeech where
  | VerbIchidan
  | VerbIchidanS
  | VerbGodanU
  | VerbGodanT
  | VerbGodanRu
  | VerbGodanK
  | VerbGodanG
  | VerbGodanM
  | VerbGodanB
  | VerbGodanN
  | VerbGodanS
  | VerbGodanAru
  | VerbGodanRI
  | VerbGodanUS
  | VerbGodanUru
  | VerbGodanKS
  | VerbSuruSpecial
  | VerbSuruIncluded
  | VerbKuru
  | AdjectiveI
  | AdjectiveIx
  | AdjectiveNa
  | Noun
deriving DecidableEq, Repr

/-- All enum variants in declaration order — the iteration order of a
`fixed_map::Set` keyed by the enum. -/
def PartOfSpeech.all : List PartOfSpeech :=
  [ .VerbIchidan, .VerbIchidanS, .VerbGodanU, .VerbGodanT, .VerbGodanRu
  , .VerbGodanK, .VerbGodanG, .VerbGodanM, .VerbGodanB, .VerbGodanN
  , .VerbGodanS, .VerbGodanAru, .VerbGodanRI, .VerbGodanUS, .VerbGodanUru
  , .VerbGodanKS, .VerbSuruSpecial, .VerbSuruIncluded, .VerbKuru
  , .AdjectiveI, .AdjectiveIx, .AdjectiveNa, .Noun ]

/-- Position of a variant in the declaration order. -/
def PartOfSpeech.pidx : PartOfSpeech → Nat
  | .VerbIchidan => 0
  | .VerbIchidanS => 1
  | .VerbGodanU => 2
  | .VerbGodanT => 3
  | .VerbGodanRu => 4
  | .VerbGodanK => 5
  | .VerbGodanG => 6
  | .VerbGodanM => 7
  | .VerbGodanB => 8
  | .VerbGodanN => 9
  | .VerbGodanS => 10
  | .VerbGodanAru => 11
  | .VerbGodanRI => 12
  | .VerbGodanUS => 13
  | .VerbGodanUru => 14
  | .VerbGodanKS => 15
  | .VerbSuruSpecial => 16
  | .VerbSuruIncluded => 17
  | .VerbKuru => 18
  | .AdjectiveI => 19
  | .AdjectiveIx => 20
  | .AdjectiveNa => 21
  | .Noun => 22

/-- A JMdict reading element, with the fields the conjugation engine uses. -/
structure ReadingElement where
  text : String
  no_kanji : Bool
  restrict : List String
deriving DecidableEq, Repr

/-- Modelled from the spec (`elements.rs` is not under src/): a reading
applies to a kanji form when its restrict list is empty or contains that
form (the no_kanji flag is checked by the caller). -/
def ReadingElement.applies_to (r : ReadingElement) (kanji : String) : Bool :=
  r.restrict.isEmpty || r.restrict.contains kanji

/-- A JMdict kanji element. -/
structure KanjiElement where
  text : String
deriving DecidableEq, Repr

/-- A JMdict sense: only the part-of-speech set matters to the engine;
membership is all the engine reads, so the set is carried as a list. -/
structure Sense where
  pos : List PartOfSpeech
deriving DecidableEq, Repr

/-- A JMdict entry, restricted to the fields the conjugation engine uses. -/
structure Entry where
  reading_elements : List ReadingElement
  kanji_elements : List KanjiElement
  senses : List Sense
deriving DecidableEq, Repr

/-- The kind of word (conjugate.rs). -/
inductive Kind where
  | Verb
  | Adjective
deriving DecidableEq, Repr

/-- The reading key a set of inflections belongs to (conjugate.rs
`Reading`): `kanji` is the kanji-element index truncated to u8, with 255
(`u8::MAX`) meaning none, and `reading` the reading-element index. -/
structure Reading where
  kanji : Nat
  reading : Nat
deriving DecidableEq, Repr

/-- Model of `kana::Full`: the dictionary form, kanji and reading surfaces
plus a suffix. -/
structure Full where
  kanji : String
  reading : String
  suffix : String
deriving DecidableEq, Repr

/-- A full inflection table for one reading permutation. -/
structure Inflections where
  dictionary : Full
  inflections : Infls
deriving DecidableEq, Repr

/-- The last two characters of a string, as (second-to-last, last); the
model of two `next_back()` calls on `char_indices`. -/
def lastTwo (s : String) : Option (Char × Char) :=
  match s.data.reverse with
  | c1 :: c2 :: _ => some (c2, c1)
  | _ => none

/-- The per-class body of `conjugate`'s match on the part of speech
(conjugate.rs lines 84-337): on success, the base inflection table, the
word kind, the de-flag and the chau stem.  `none` models `continue`.
The rule-table rows come from the spec-modelled row lists above; the
structure (which suffixes are stripped, how fragments are assembled, the
ichidan chau stem っ, and the adjective tables) is translated directly
from the source. -/
def conjugateBase (pos : PartOfSpeech) (kanji_text reading_text : String) :
    Option (Infls × Kind × Bool × Fragments) :=
  match pos with
  | .VerbIchidan | .VerbIchidanS =>
    match stripSuffix kanji_text "る", stripSuffix reading_text "る" with
    | some k, some r =>
      let infl : Infls := Infls.insertT [] (inflect [.Te]) (Fragments.mk' [k] [r] ["て"])
      let infl := infl.insertRows
        (ichidanRows.map (fun row => (row.1, Fragments.mk' [k] [r] [row.2])))
      some (infl, .Verb, false, Fragments.mk' [k] [r] ["っ"])
    | _, _ => none
  | .VerbGodanKS =>
    match stripSuffix kanji_text "く", stripSuffix reading_text "く" with
    | some k, some r =>
      let g := godan.IKU
      let infl : Infls := Infls.insertT [] (inflect [.Te]) (Fragments.mk' [k] [r] [g.te])
      let infl := infl.insertRows
        ((godanRows g).map (fun row => (row.1, Fragments.mk' [k] [r] [row.2])))
      some (infl, .Verb, g.de, Fragments.mk' [k] [r] [g.te_stem])
    | _, _ => none
  | .VerbGodanAru | .VerbGodanB | .VerbGodanG | .VerbGodanK | .VerbGodanM
  | .VerbGodanN | .VerbGodanRu | .VerbGodanRI | .VerbGodanS | .VerbGodanT
  | .VerbGodanU | .VerbGodanUS | .VerbGodanUru =>
    let g? : Option Godan :=
      match kanji_text.data.getLast? with
      | some 'う' => some godan.U
      | some 'つ' => some godan.TSU
      | some 'る' => some godan.RU
      | some 'く' => some godan.KU
      | some 'ぐ' => some godan.GU
      | some 'む' => some godan.MU
      | some 'ぶ' => some godan.BU
      | some 'ぬ' => some godan.NU
      | some 'す' => some godan.SU
      | _ => none
    match g? with
    | none => none
    | some g =>
      let k := dropRightStr kanji_text 1
      let r := dropRightStr reading_text 1
      let infl : Infls := Infls.insertT [] (inflect [.Te]) (Fragments.mk' [k] [r] [g.te])
      let infl := infl.insertRows
        ((godanRows g).map (fun row => (row.1, Fragments.mk' [k] [r] [row.2])))
      some (infl, .Verb, g.de, Fragments.mk' [k] [r] [g.te_stem])
  | .VerbSuruSpecial | .VerbSuruIncluded =>
    match lastTwo kanji_text, lastTwo reading_text with
    | some (k, 'る'), some ('す', 'る') =>
      let kanji_pre := dropRightStr kanji_text 2
      let reading_pre := dropRightStr reading_text 2
      let kanji_stem := dropRightStr kanji_text 1
      let infl : Infls :=
        if k == 'す' then
          Infls.insertRows [] (suruRows.map (fun row =>
            (row.1, Fragments.mk' [kanji_pre] [reading_pre] [row.2.1 ++ row.2.2])))
        else
          Infls.insertRows [] (suruRows.map (fun row =>
            (row.1, Fragments.mk' [kanji_stem] [reading_pre, row.2.1] [row.2.2])))
      some (infl, .Verb, false, Fragments.empty)
    | _, _ => none
  | .VerbKuru =>
    match lastTwo kanji_text, lastTwo reading_text with
    | some (k, 'る'), some ('く', 'る') =>
      let kanji_pre := dropRightStr kanji_text 2
      let reading_pre := dropRightStr reading_text 2
      let kanji_stem := dropRightStr kanji_text 1
      let infl : Infls :=
        if k == 'く' then
          Infls.insertRows [] (kuruRows.map (fun row =>
            (row.1, Fragments.mk' [kanji_pre] [reading_pre] [row.2.1 ++ row.2.2])))
        else
          Infls.insertRows [] (kuruRows.map (fun row =>
            (row.1, Fragments.mk' [kanji_stem] [reading_pre, row.2.1] [row.2.2])))
      some (infl, .Verb, false, Fragments.empty)
    | _, _ => none
  | .AdjectiveI =>
    match stripSuffix kanji_text "い", stripSuffix reading_text "い" with
    | some k, some r =>
      let rows : List (InflSet × String) :=
        [ (inflect [], "い")
        , (inflect [.Polite], "いです")
        , (inflect [.Past], "かった")
        , (inflect [.Past, .Polite], "かったです")
        , (inflect [.Negative], "くない")
        , (inflect [.Negative, .Polite], "くないです")
        , (inflect [.Past, .Negative], "なかった")
        , (inflect [.Past, .Negative, .Polite], "なかったです") ]
      let infl : Infls := Infls.insertRows []
        (rows.map (fun row => (row.1, Fragments.mk' [k] [r] [row.2])))
      some (infl, .Adjective, false, Fragments.empty)
    | _, _ => none
  | .AdjectiveIx =>
    match stripSuffix kanji_text "いい", stripSuffix reading_text "いい" with
    | some k, some r =>
      let rows : List (InflSet × String) :=
        [ (inflect [], "いい")
        , (inflect [.Polite], "いいです")
        , (inflect [.Past], "よかった")
        , (inflect [.Past, .Polite], "よかったです")
        , (inflect [.Negative], "よくない")
        , (inflect [.Negative, .Polite], "よくないです")
        , (inflect [.Past, .Negative], "よなかった")
        , (inflect [.Past, .Negative, .Polite], "よなかったです") ]
      let infl : Infls := Infls.insertRows []
        (rows.map (fun row => (row.1, Fragments.mk' [k] [r] [row.2])))
      some (infl, .Adjective, false, Fragments.empty)
    | _, _ => none
  | .AdjectiveNa =>
    let rows : List (InflSet × String) :=
      [ (inflect [], "だ")
      , (inflect [.Polite], "です")
      , (inflect [.Past], "だった")
      , (inflect [.Past, .Polite], "でした")
      , (inflect [.Negative], "ではない")
      , (inflect [.Negative, .Polite], "ではありません")
      , (inflect [.Past, .Negative], "ではなかった")
      , (inflect [.Past, .Negative, .Polite], "ではありませんでした") ]
    let infl : Infls := Infls.insertRows []
      (rows.map (fun row => (row.1, Fragments.mk' [kanji_text] [reading_text] [row.2])))
    some (infl, .Adjective, false, Fragments.empty)
  | _ => none

/-- The te-form auxiliary grafting (conjugate.rs lines 339-389): when the
table has a te-form, chain ている (with the short てる), てある, ていく,
てしまう, ておく (with the short とく ending く) and てくる onto it. -/
def teChain (infl : Infls) : Infls :=
  match infl.getT (inflect [.Te]) with
  | none => infl
  | some p =>
    let infl := infl.insertT (inflect [.TeIru, .Te, .Short]) (p.concat ["る"])
    let infl := infl.insertRows (ichidanRows.map (fun row =>
      (inflect [.TeIru, .Te] ||| row.1, p.concat ["い" ++ row.2])))
    let infl := infl.insertRows ((godanRows godan.RU).map (fun row =>
      (inflect [.TeAru, .Te] ||| row.1, p.concat ["あ", row.2])))
    let infl := infl.insertRows ((godanRows godan.IKU).map (fun row =>
      (inflect [.TeIku, .Te] ||| row.1, p.concat ["い", row.2])))
    let infl := infl.insertRows ((godanRows godan.U).map (fun row =>
      (inflect [.TeShimau, .Te] ||| row.1, p.concat ["しま", row.2])))
    let infl := infl.insertRows ((godanRows godan.KU).map (fun row =>
      (inflect [.TeOku, .Te] ||| row.1, p.concat ["お", row.2])))
    let infl := infl.insertT (inflect [.Te, .TeOku, .Short]) (p.concat ["く"])
    let infl := infl.insertRows (kuruRows.map (fun row =>
      (inflect [.TeKuru, .Te] ||| row.1, p.concat [row.2.1 ++ row.2.2])))
    infl

/-- The chau contraction (conjugate.rs lines 391-403): when the stem is
non-empty, conjugate stem + ちゃ (or じゃ when the de-flag is set) as a
godan -う verb. -/
def chauStep (infl : Infls) (de : Bool) (stem : Fragments) : Infls :=
  if stem.isEmpty then infl
  else
    let pre := if de then "じゃ" else "ちゃ"
    infl.insertRows ((godanRows godan.U).map (fun row =>
      (inflect [.Chau] ||| row.1, stem.concat [pre, row.2])))

/-- One iteration of the inner loop of `conjugate` over a single part of
speech and reading permutation; `none` models `continue`. -/
def conjugateOne (pos : PartOfSpeech)
    (pr : Option (Nat × String) × (Nat × String)) :
    Option (Reading × Inflections × Kind) :=
  let kanji := pr.1
  let reading := pr.2
  let kanji_text := (kanji.getD reading).2
  let reading_text := reading.2
  match conjugateBase pos kanji_text reading_text with
  | none => none
  | some (infl, kind, de, stem) =>
    let infl := teChain infl
    let infl := chauStep infl de stem
    some ( { kanji := match kanji with | some (i, _) => i % 256 | none => 255
           , reading := reading.1 % 256 }
         , { dictionary := ⟨kanji_text, reading_text, ""⟩, inflections := infl }
         , kind )

/-- `reading_permutations` (conjugate.rs lines 422-444): each reading with
no_kanji set, or of an entry without kanji elements, yields a (none,
reading) pair; otherwise one (kanji, reading) pair per kanji element the
reading applies to.  Indexed pairs preserve the input order. -/
def reading_permutations (entry : Entry) :
    List (Option (Nat × String) × (Nat × String)) :=
  entry.reading_elements.enum.flatMap (fun p =>
    if p.2.no_kanji || entry.kanji_elements.isEmpty then
      [(none, (p.1, p.2.text))]
    else
      entry.kanji_elements.enum.filterMap (fun q =>
        if p.2.applies_to q.2.text then
          some (some (q.1, q.2.text), (p.1, p.2.text))
        else
          none))

/-- `parts_of_speech` (conjugate.rs lines 447-457): the union of all sense
part-of-speech sets, collected into a `fixed_map::Set` and therefore
iterated in enum declaration order. -/
def parts_of_speech (entry : Entry) : List PartOfSpeech :=
  PartOfSpeech.all.filter (fun p =>
    entry.senses.any (fun s => s.pos.contains p))

/-- The push step of `conjugate`'s inner loop: append the record when the
iteration succeeds, keep the output unchanged on `continue`. -/
def conjugatePush (pos : PartOfSpeech)
    (output : List (Reading × Inflections × Kind))
    (pr : Option (Nat × String) × (Nat × String)) :
    List (Reading × Inflections × Kind) :=
  match conjugateOne pos pr with
  | some r => output ++ [r]
  | none => output

/-- `conjugate` (conjugate.rs lines 69-420): the nested loop over parts of
speech and reading permutations, pushing one record per successful
permutation. -/
def conjugate (entry : Entry) : List (Reading × Inflections × Kind) :=
  let readings := reading_permutations entry
  (parts_of_speech entry).foldl (fun output pos =>
    readings.foldl (conjugatePush pos) output) []

/-- A parser event, as the typed builders see it (the `Output` enum of the
per-format parser modules; only the variants the two builders inspect are
distinguished, plus `Open` standing for the remaining event shapes). -/
inductive Output where
  | Open (tag : String)
  | Attribute (name value : String)
  | Text (text : String)
  | Close
deriving DecidableEq, Repr

/-- `Poll`: a builder either keeps waiting or yields its finished record. -/
inductive Poll (α : Type) where
  | Pending
  | Ready (value : α)
deriving DecidableEq, Repr

/-- A builder error: either an unexpected event, carried verbatim
(`bail!("Unsupported {output:?}")`), or a missing required slot on Close,
carrying the source's context message (`context("missing ...")`). -/
inductive BuildError where
  | unsupported (output : Output)
  | missing (message : String)
deriving DecidableEq, Repr

namespace Jmdict

/-- A JMdict example sentence (example_sentence.rs). -/
structure ExampleSentence where
  text : String
  lang : Option String
deriving DecidableEq, Repr

/-- The example-sentence builder's slots (example_sentence.rs). -/
structure Builder where
  text : Option String
  lang : Option String
deriving DecidableEq, Repr

/-- `Builder::default()`. -/
def Builder.init : Builder := ⟨none, none⟩

/-- `Builder::wants_text`. -/
def Builder.wants_text (_ : Builder) : Bool := true

/-- `Builder::poll` (example_sentence.rs lines 27-45): Text fills the empty
text slot, a lang attribute fills the empty lang slot, Close yields the
record (text is required), everything else is an Unsupported error. -/
def Builder.poll (b : Builder) (output : Output) :
    Except BuildError (Builder × Poll ExampleSentence) :=
  match output with
  | .Text text =>
    if b.text.isNone then .ok (⟨some text, b.lang⟩, .Pending)
    else .error (.unsupported output)
  | .Attribute "lang" value =>
    if b.lang.isNone then .ok (⟨b.text, some value⟩, .Pending)
    else .error (.unsupported output)
  | .Close =>
    match b.text with
    | some text => .ok (b, .Ready ⟨text, b.lang⟩)
    | none => .error (.missing "missing text")
  | _ => .error (.unsupported output)

end Jmdict

namespace Kanjidic2

/-- A KANJIDIC2 character reading (kanjidic2/reading.rs). -/
structure Reading where
  text : String
  ty : String
deriving DecidableEq, Repr

/-- The reading builder's slots (kanjidic2/reading.rs). -/
structure Builder where
  text : Option String
  ty : Option String
deriving DecidableEq, Repr

/-- `Builder::default()`. -/
def Builder.init : Builder := ⟨none, none⟩

/-- `Builder::wants_text`. -/
def Builder.wants_text (_ : Builder) : Bool := true

/-- `Builder::poll` (kanjidic2/reading.rs lines 26-44): Text fills the
empty text slot, an r_type attribute fills the empty ty slot, Close yields
the record (both slots required; the source's context message for a
missing ty is the literal string "missing `cp_type`"), everything else is
an Unsupported error. -/
def Builder.poll (b : Builder) (output : Output) :
    Except BuildError (Builder × Poll Reading) :=
  match output with
  | .Text text =>
    if b.text.isNone then .ok (⟨some text, b.ty⟩, .Pending)
    else .error (.unsupported output)
  | .Attribute "r_type" value =>
    if b.ty.isNone then .ok (⟨b.text, some value⟩, .Pending)
    else .error (.unsupported output)
  | .Close =>
    match b.text with
    | none => .error (.missing "missing text")
    | some text =>
      match b.ty with
      | none => .error (.missing "missing `cp_type`")
      | some ty => .ok (b, .Ready ⟨text, ty⟩)
  | _ => .error (.unsupported output)

end Kanjidic2

/-- Modelled from the claim's words, for comparison with the code's order:
the parts of speech in input order of first appearance across the senses. -/
def inputOrderParts (entry : Entry) : List PartOfSpeech :=
  (entry.senses.flatMap (fun s => s.pos)).foldl
    (fun acc p => if acc.contains p then acc else acc ++ [p]) []

/-- Modelled from the claim's words, for comparison with the code's order:
records ordered by the input order of parts of speech, permutations in
input order. -/
def conjugateInputOrder (entry : Entry) : List (Reading × Inflections × Kind) :=
  (inputOrderParts entry).flatMap (fun pos =>
    (reading_permutations entry).filterMap (conjugateOne pos))

/-- The part-of-speech classes the `conjugate` match supports (everything
before its catch-all arm). -/
def supportedPos : PartOfSpeech → Bool
  | .VerbIchidan | .VerbIchidanS
  | .VerbGodanKS
  | .VerbGodanAru | .VerbGodanB | .VerbGodanG | .VerbGodanK | .VerbGodanM
  | .VerbGodanN | .VerbGodanRu | .VerbGodanRI | .VerbGodanS | .VerbGodanT
  | .VerbGodanU | .VerbGodanUS | .VerbGodanUru
  | .VerbSuruSpecial | .VerbSuruIncluded
  | .VerbKuru
  | .AdjectiveI | .AdjectiveIx | .AdjectiveNa => true
  | _ => false

/-- Sample entry: 食べる as an ichidan verb, kana only. -/
def tabeEntry : Entry :=
  ⟨[⟨"食べる", false, []⟩], [], [⟨[.VerbIchidan]⟩]⟩

/-- Sample entry: 行く (reading いく) as a godan -く special (Iku) verb. -/
def ikuEntry : Entry :=
  ⟨[⟨"いく", false, []⟩], [⟨"行く"⟩], [⟨[.VerbGodanKS]⟩]⟩

/-- Sample entry: 飲む (reading のむ) as a godan -む verb. -/
def nomuEntry : Entry :=
  ⟨[⟨"のむ", false, []⟩], [⟨"飲む"⟩], [⟨[.VerbGodanM]⟩]⟩

/-- Sample entry: 買う (reading かう) as a godan -う verb (de-flag unset). -/
def kauEntry : Entry :=
  ⟨[⟨"かう", false, []⟩], [⟨"買う"⟩], [⟨[.VerbGodanU]⟩]⟩

/-- Sample entry: いい as an AdjectiveIx adjective. -/
def iiEntry : Entry :=
  ⟨[⟨"いい", false, []⟩], [], [⟨[.AdjectiveIx]⟩]⟩

/-- Sample entry: a plain noun, not conjugatable. -/
def nounEntry : Entry :=
  ⟨[⟨"たな", false, []⟩], [⟨"棚"⟩], [⟨[.Noun]⟩]⟩

/-- Sample entry: one sense lists AdjectiveNa before a second sense lists
VerbIchidan, so the input order of parts of speech differs from the enum
order. -/
def mixedEntry : Entry :=
  ⟨[⟨"みる", false, []⟩], [], [⟨[.AdjectiveNa]⟩, ⟨[.VerbIchidan]⟩]⟩

/-- Sample entry: an ichidan verb with one well-formed reading and one that
does not end in る. -/
def c7Entry : Entry :=
  ⟨[⟨"食べる", false, []⟩, ⟨"テスト", false, []⟩], [], [⟨[.VerbIchidan]⟩]⟩

/-- Sample entry for the permutation claims: two kanji forms, one reading
restricted to the second form, one unrestricted, one with no_kanji. -/
def permEntry : Entry :=
  ⟨ [ ⟨"たべる", false, []⟩, ⟨"くう", false, ["食う"]⟩, ⟨"ショク", true, []⟩ ]
  , [⟨"食べる"⟩, ⟨"食う"⟩]
  , [⟨[.VerbIchidan]⟩] ⟩

theorem conjugatePush_foldl (pos : PartOfSpeech)
    (rs : List (Option (Nat × String) × (Nat × String)))
    (acc : List (Reading × Inflections × Kind)) :
    rs.foldl (conjugatePush pos) acc = acc ++ rs.filterMap (conjugateOne pos) := by
  induction rs generalizing acc with
  | nil => simp
  | cons x xs ih =>
    cases h : conjugateOne pos x <;>
      simp [List.foldl_cons, conjugatePush, List.filterMap_cons, h, ih]

theorem conjugate_eq_flatMap (entry : Entry) :
    conjugate entry = (parts_of_speech entry).flatMap (fun pos =>
      (reading_permutations entry).filterMap (conjugateOne pos)) := by
  unfold conjugate
  generalize parts_of_speech entry = ps
  generalize reading_permutations entry = rs
  suffices h : ∀ acc : List (Reading × Inflections × Kind),
      ps.foldl (fun output pos => rs.foldl (conjugatePush pos) output) acc
        = acc ++ ps.flatMap (fun pos => rs.filterMap (conjugateOne pos)) by
    simpa using h []
  intro acc
  induction ps generalizing acc with
  | nil => simp
  | cons p ps ih =>
    rw [List.foldl_cons, conjugatePush_foldl, ih, List.flatMap_cons, List.append_assoc]

theorem applies_to_iff (r : ReadingElement) (k : String) :
    r.applies_to k = true ↔ (r.restrict = [] ∨ k ∈ r.restrict) := by
  unfold ReadingElement.applies_to
  simp [List.isEmpty_iff, List.elem_iff]

theorem mem_reading_permutations (entry : Entry) (ki ri : Nat)
    (ke : KanjiElement) (re : ReadingElement)
    (hk : entry.kanji_elements[ki]? = some ke)
    (hr : entry.reading_elements[ri]? = some re) :
    ((some (ki, ke.text), (ri, re.text)) ∈ reading_permutations entry) ↔
      (re.no_kanji = false ∧ (re.restrict = [] ∨ ke.text ∈ re.restrict)) := by
  have hne : entry.kanji_elements.isEmpty = false := by
    cases hkel : entry.kanji_elements with
    | nil => rw [hkel] at hk; simp at hk
    | cons a l => simp
  unfold reading_permutations
  simp only [List.mem_flatMap, Prod.exists, List.mk_mem_enum_iff_getElem?]
  constructor
  · rintro ⟨i, r, hir, hmem⟩
    by_cases hc : (r.no_kanji || entry.kanji_elements.isEmpty) = true
    · rw [if_pos hc] at hmem
      simp at hmem
    · rw [if_neg hc] at hmem
      simp only [List.mem_filterMap, Prod.exists,
        List.mk_mem_enum_iff_getElem?] at hmem
      obtain ⟨j, k, hjk, happ⟩ := hmem
      by_cases ha : r.applies_to k.text = true
      · rw [if_pos ha] at happ
        simp only [Option.some.injEq, Prod.mk.injEq] at happ
        obtain ⟨⟨hj, hkt⟩, hi, hrt⟩ := happ
        subst hj
        subst hi
        rw [hk] at hjk
        rw [hr] at hir
        injection hjk with hjk
        injection hir with hir
        subst hjk
        subst hir
        simp only [Bool.or_eq_true, not_or, Bool.not_eq_true] at hc
        refine ⟨hc.1, ?_⟩
        rw [← hkt]
        exact (applies_to_iff _ _).mp ha
      · rw [if_neg ha] at happ
        simp at happ
  · rintro ⟨hnk, hres⟩
    refine ⟨ri, re, hr, ?_⟩
    rw [if_neg (by simp [hnk, hne])]
    simp only [List.mem_filterMap, Prod.exists, List.mk_mem_enum_iff_getElem?]
    refine ⟨ki, ke, hk, ?_⟩
    rw [if_pos ((applies_to_iff _ _).mpr hres)]

theorem reading_permutations_no_kanji (entry : Entry)
    (h : entry.kanji_elements = []) :
    reading_permutations entry
      = entry.reading_elements.enum.map (fun p => (none, (p.1, p.2.text))) := by
  unfold reading_permutations
  rw [h]
  simp only [List.isEmpty_nil, Bool.or_true, if_true]
  exact (List.map_eq_flatMap _ _).symm

/-- The auxiliary-chain features grafted onto the te-form. -/
def auxInfls : List Infl := [.TeIru, .TeAru, .TeIku, .TeShimau, .TeOku, .TeKuru]

/-- A key is good when every auxiliary feature it contains comes with Te. -/
def goodKey (k : InflSet) : Bool :=
  auxInfls.all (fun a => !(InflSet.mem k a) || InflSet.mem k Infl.Te)

/-- All keys of a table are good. -/
def goodTable (t : Infls) : Prop := ∀ p ∈ t, goodKey p.1 = true

theorem goodTable_nil : goodTable [] := by
  intro p hp
  exact absurd hp (List.not_mem_nil p)

theorem goodTable_insertT {t : Infls} {k : InflSet} {v : Fragments}
    (ht : goodTable t) (hk : goodKey k = true) : goodTable (t.insertT k v) := by
  intro p hp
  unfold Infls.insertT at hp
  by_cases hc : t.any (fun q => q.1 == k) = true
  · rw [if_pos hc] at hp
    obtain ⟨q, hq, hpq⟩ := List.mem_map.mp hp
    by_cases he : (q.1 == k) = true
    · rw [if_pos he] at hpq
      rw [← hpq]
      exact hk
    · rw [if_neg he] at hpq
      rw [← hpq]
      exact ht q hq
  · rw [if_neg hc] at hp
    rcases List.mem_append.mp hp with h | h
    · exact ht p h
    · rcases List.mem_singleton.mp h with rfl
      exact hk

theorem goodTable_insertRows (rows : List (InflSet × Fragments)) (t : Infls)
    (ht : goodTable t) (hrows : ∀ r ∈ rows, goodKey r.1 = true) :
    goodTable (t.insertRows rows) := by
  induction rows generalizing t with
  | nil => exact ht
  | cons r rs ih =>
    exact ih (t.insertT r.1 r.2)
      (goodTable_insertT ht (hrows r (List.mem_cons_self _ _)))
      (fun x hx => hrows x (List.mem_cons_of_mem _ hx))

theorem goodKey_or_te (k1 k2 : InflSet) (h : InflSet.mem k1 Infl.Te = true) :
    goodKey (k1 ||| k2) = true := by
  unfold goodKey
  apply List.all_eq_true.mpr
  intro a _
  have hTe : InflSet.mem (k1 ||| k2) Infl.Te = true := by
    unfold InflSet.mem at h ⊢
    rw [Nat.testBit_or]
    simp [h]
  simp [hTe]

theorem goodKey_or_auxFree (k1 k2 : InflSet)
    (h1 : auxInfls.all (fun a => !(InflSet.mem k1 a)) = true)
    (h2 : auxInfls.all (fun a => !(InflSet.mem k2 a)) = true) :
    goodKey (k1 ||| k2) = true := by
  unfold goodKey
  apply List.all_eq_true.mpr
  intro a ha
  have e1 := List.all_eq_true.mp h1 a ha
  have e2 := List.all_eq_true.mp h2 a ha
  simp only [Bool.not_eq_true'] at e1 e2
  unfold InflSet.mem at e1 e2 ⊢
  rw [Nat.testBit_or, e1, e2]
  simp

theorem goodTable_insertMapped {β : Type} {t : Infls} (ht : goodTable t)
    (base : InflSet) (hb : InflSet.mem base Infl.Te = true)
    (rows : List (InflSet × β)) (f : InflSet × β → Fragments) :
    goodTable (t.insertRows (rows.map (fun row => (base ||| row.1, f row)))) := by
  apply goodTable_insertRows _ _ ht
  intro r hr
  obtain ⟨row, hrow, rfl⟩ := List.mem_map.mp hr
  exact goodKey_or_te _ _ hb

theorem goodTable_insertRowsKeys {β : Type} {t : Infls} (ht : goodTable t)
    (rows : List (InflSet × β)) (f : InflSet × β → Fragments)
    (hkeys : ((rows.map Prod.fst).all goodKey) = true) :
    goodTable (t.insertRows (rows.map (fun row => (row.1, f row)))) := by
  apply goodTable_insertRows _ _ ht
  intro r hr
  obtain ⟨row, hrow, rfl⟩ := List.mem_map.mp hr
  exact List.all_eq_true.mp hkeys _ (List.mem_map_of_mem _ hrow)

theorem goodTable_teChain {t : Infls} (ht : goodTable t) : goodTable (teChain t) := by
  unfold teChain
  cases hg : t.getT (inflect [.Te]) with
  | none => exact ht
  | some p =>
    dsimp only
    apply goodTable_insertMapped
    · apply goodTable_insertT
      · apply goodTable_insertMapped
        · apply goodTable_insertMapped
          · apply goodTable_insertMapped
            · apply goodTable_insertMapped
              · apply goodTable_insertMapped
                · exact goodTable_insertT ht (by decide)
                · decide
              · decide
            · decide
          · decide
        · decide
      · decide
    · decide

theorem goodTable_chauStep {t : Infls} (ht : goodTable t) (de : Bool)
    (stem : Fragments) : goodTable (chauStep t de stem) := by
  unfold chauStep
  by_cases h : stem.isEmpty = true
  · rw [if_pos h]
    exact ht
  · rw [if_neg h]
    dsimp only
    apply goodTable_insertRows _ _ ht
    intro r hr
    obtain ⟨row, hrow, rfl⟩ := List.mem_map.mp hr
    apply goodKey_or_auxFree
    · decide
    · have h1 : row.1 ∈ (godanRows godan.U).map Prod.fst :=
        List.mem_map_of_mem _ hrow
      have h2 : ∀ x ∈ (godanRows godan.U).map Prod.fst,
          auxInfls.all (fun a => !(InflSet.mem x a)) = true := by decide
      exact h2 _ h1

theorem godanKeys_good (g : Godan) :
    ((godanRows g).map Prod.fst).all goodKey = true := by
  show ([ inflect [], inflect [.Polite], inflect [.Negative]
        , inflect [.Negative, .Polite], inflect [.Past], inflect [.Past, .Polite]
        , inflect [.Past, .Negative], inflect [.Past, .Negative, .Polite]
        , inflect [.Volitional], inflect [.Imperative], inflect [.Conditional]
        , inflect [.Potential], inflect [.Passive], inflect [.Causative]
        ]).all goodKey = true
  decide

set_option maxHeartbeats 2000000 in
theorem goodTable_conjugateBase (pos : PartOfSpeech) (kt rt : String)
    (q : Infls × Kind × Bool × Fragments)
    (h : conjugateBase pos kt rt = some q) : goodTable q.1 := by
  cases pos <;> rw [conjugateBase.eq_def] at h <;> (try dsimp only at h)
  case Noun => exact Option.noConfusion h
  case VerbIchidan =>
    cases hs1 : stripSuffix kt "る" <;> rw [hs1] at h <;>
      cases hs2 : stripSuffix rt "る" <;> rw [hs2] at h <;> (try dsimp only at h)
    all_goals try exact Option.noConfusion h
    injection h with h
    subst h
    dsimp only
    exact goodTable_insertRowsKeys
      (goodTable_insertT goodTable_nil (by decide)) _ _ (by decide)
  case VerbIchidanS =>
    cases hs1 : stripSuffix kt "る" <;> rw [hs1] at h <;>
      cases hs2 : stripSuffix rt "る" <;> rw [hs2] at h <;> (try dsimp only at h)
    all_goals try exact Option.noConfusion h
    injection h with h
    subst h
    dsimp only
    exact goodTable_insertRowsKeys
      (goodTable_insertT goodTable_nil (by decide)) _ _ (by decide)
  case VerbGodanKS =>
    cases hs1 : stripSuffix kt "く" <;> rw [hs1] at h <;>
      cases hs2 : stripSuffix rt "く" <;> rw [hs2] at h <;> (try dsimp only at h)
    all_goals try exact Option.noConfusion h
    injection h with h
    subst h
    dsimp only
    exact goodTable_insertRowsKeys
      (goodTable_insertT goodTable_nil (by decide)) _ _ (by decide)
  case AdjectiveI =>
    cases hs1 : stripSuffix kt "い" <;> rw [hs1] at h <;>
      cases hs2 : stripSuffix rt "い" <;> rw [hs2] at h <;> (try dsimp only at h)
    all_goals try exact Option.noConfusion h
    injection h with h
    subst h
    dsimp only
    exact goodTable_insertRowsKeys goodTable_nil _ _ (by decide)
  case AdjectiveIx =>
    cases hs1 : stripSuffix kt "いい" <;> rw [hs1] at h <;>
      cases hs2 : stripSuffix rt "いい" <;> rw [hs2] at h <;> (try dsimp only at h)
    all_goals try exact Option.noConfusion h
    injection h with h
    subst h
    dsimp only
    exact goodTable_insertRowsKeys goodTable_nil _ _ (by decide)
  case AdjectiveNa =>
    injection h with h
    subst h
    dsimp only
    exact goodTable_insertRowsKeys goodTable_nil _ _ (by decide)
  case VerbSuruSpecial =>
    cases h1 : lastTwo kt <;> rw [h1] at h <;>
      cases h2 : lastTwo rt <;> rw [h2] at h <;> (try dsimp only at h)
    all_goals repeat' split at h
    all_goals try exact Option.noConfusion h
    all_goals
      (injection h with h; subst h; dsimp only;
        exact goodTable_insertRowsKeys goodTable_nil _ _ (by decide))
  case VerbSuruIncluded =>
    cases h1 : lastTwo kt <;> rw [h1] at h <;>
      cases h2 : lastTwo rt <;> rw [h2] at h <;> (try dsimp only at h)
    all_goals repeat' split at h
    all_goals try exact Option.noConfusion h
    all_goals
      (injection h with h; subst h; dsimp only;
        exact goodTable_insertRowsKeys goodTable_nil _ _ (by decide))
  case VerbKuru =>
    cases h1 : lastTwo kt <;> rw [h1] at h <;>
      cases h2 : lastTwo rt <;> rw [h2] at h <;> (try dsimp only at h)
    all_goals repeat' split at h
    all_goals try exact Option.noConfusion h
    all_goals
      (injection h with h; subst h; dsimp only;
        exact goodTable_insertRowsKeys goodTable_nil _ _ (by decide))
  all_goals
    cases hg : kt.data.getLast? <;> rw [hg] at h <;> (try dsimp only at h)
  all_goals try exact Option.noConfusion h
  all_goals repeat' split at h
  all_goals try exact Option.noConfusion h
  all_goals
    (injection h with h; subst h; dsimp only;
      exact goodTable_insertRowsKeys
        (goodTable_insertT goodTable_nil (by decide)) _ _ (godanKeys_good _))

theorem goodTable_conjugateOne (pos : PartOfSpeech)
    (pr : Option (Nat × String) × (Nat × String))
    (out : Reading × Inflections × Kind)
    (h : conjugateOne pos pr = some out) :
    goodTable out.2.1.inflections := by
  unfold conjugateOne at h
  dsimp only at h
  cases hb : conjugateBase pos ((pr.1.getD pr.2).2) pr.2.2 with
  | none =>
    rw [hb] at h
    exact Option.noConfusion h
  | some q =>
    obtain ⟨infl, kind, de, stem⟩ := q
    rw [hb] at h
    dsimp only at h
    injection h with h
    subst h
    dsimp only
    exact goodTable_chauStep (goodTable_teChain
      (goodTable_conjugateBase pos _ _ _ hb)) de stem

set_option maxRecDepth 1000000
set_option maxHeartbeats 4000000

/-- Claim C1 as stated is false on the code: for the 食べる ichidan entry
the produced table has no entry at the feature-set containing only TeIru
and Short (the key used is the one that also contains Te), and the Chau
cell is 食べっちゃう, not 食べちゃう. -/
theorem C1_counterexample :
    ¬ ∃ r ∈ conjugate tabeEntry,
        r.2.1.inflections.getT (inflect [.TeIru, .Short])
            = some ⟨"食べてる", "食べてる"⟩ ∧
        r.2.1.inflections.getT (inflect [.Chau])
            = some ⟨"食べちゃう", "食べちゃう"⟩ := by
  decide

/-- Claim C1, amended: for an entry whose aggregated pos set is exactly
VerbIchidan and whose single reading permutation has surface 食べる, the
produced table maps the feature-set containing only Te to 食べて, Past to
食べた, Negative to 食べない, the set of Te, TeIru and Short to 食べてる,
and Chau to 食べっちゃう (the ichidan chau stem carries っ). -/
theorem C1_tabe_amended (e : Entry)
    (h1 : parts_of_speech e = [PartOfSpeech.VerbIchidan])
    (h2 : reading_permutations e = [(none, (0, "食べる"))]) :
    ∃ r ∈ conjugate e,
      r.2.1.inflections.getT (inflect [.Te]) = some ⟨"食べて", "食べて"⟩ ∧
      r.2.1.inflections.getT (inflect [.Past]) = some ⟨"食べた", "食べた"⟩ ∧
      r.2.1.inflections.getT (inflect [.Negative]) = some ⟨"食べない", "食べない"⟩ ∧
      r.2.1.inflections.getT (inflect [.Te, .TeIru, .Short])
          = some ⟨"食べてる", "食べてる"⟩ ∧
      r.2.1.inflections.getT (inflect [.Chau])
          = some ⟨"食べっちゃう", "食べっちゃう"⟩ := by
  rw [conjugate_eq_flatMap, h1, h2]
  decide

/-- Witness for C1_tabe_amended at the concrete 食べる entry. -/
theorem C1_tabe_witness :
    ∃ r ∈ conjugate tabeEntry,
      r.2.1.inflections.getT (inflect [.Te]) = some ⟨"食べて", "食べて"⟩ ∧
      r.2.1.inflections.getT (inflect [.Past]) = some ⟨"食べた", "食べた"⟩ ∧
      r.2.1.inflections.getT (inflect [.Negative]) = some ⟨"食べない", "食べない"⟩ ∧
      r.2.1.inflections.getT (inflect [.Te, .TeIru, .Short])
          = some ⟨"食べてる", "食べてる"⟩ ∧
      r.2.1.inflections.getT (inflect [.Chau])
          = some ⟨"食べっちゃう", "食べっちゃう"⟩ :=
  C1_tabe_amended tabeEntry (by decide) (by decide)

/-- Claim C2: for an entry whose pos set is exactly VerbGodanKS and whose
single permutation pairs kanji 行く with reading いく, the Iku exception
table gives Te = 行って and Past = 行った, not the regular godan-ku forms
行いて / 行いた. -/
theorem C2_iku (e : Entry)
    (h1 : parts_of_speech e = [PartOfSpeech.VerbGodanKS])
    (h2 : reading_permutations e = [(some (0, "行く"), (0, "いく"))]) :
    ∃ r ∈ conjugate e,
      r.2.1.inflections.getT (inflect [.Te]) = some ⟨"行って", "いって"⟩ ∧
      r.2.1.inflections.getT (inflect [.Past]) = some ⟨"行った", "いった"⟩ ∧
      r.2.1.inflections.getT (inflect [.Te]) ≠ some ⟨"行いて", "いいて"⟩ ∧
      r.2.1.inflections.getT (inflect [.Past]) ≠ some ⟨"行いた", "いいた"⟩ := by
  rw [conjugate_eq_flatMap, h1, h2]
  decide

/-- Witness for C2_iku at the concrete 行く entry. -/
theorem C2_iku_witness :
    ∃ r ∈ conjugate ikuEntry,
      r.2.1.inflections.getT (inflect [.Te]) = some ⟨"行って", "いって"⟩ ∧
      r.2.1.inflections.getT (inflect [.Past]) = some ⟨"行った", "いった"⟩ ∧
      r.2.1.inflections.getT (inflect [.Te]) ≠ some ⟨"行いて", "いいて"⟩ ∧
      r.2.1.inflections.getT (inflect [.Past]) ≠ some ⟨"行いた", "いいた"⟩ :=
  C2_iku ikuEntry (by decide) (by decide)

/-- Claim C3: for an entry whose pos set is exactly VerbGodanM and whose
single permutation pairs 飲む with のむ, the table maps Te to 飲んで, Past
to 飲んだ, Negative to 飲まない, Polite to 飲みます and — the -む class
having the de-flag set — Chau to 飲んじゃう; a de-flag-unset class (買う,
godan -う) uses ちゃ instead: Chau maps to 買っちゃう. -/
theorem C3_nomu (e : Entry)
    (h1 : parts_of_speech e = [PartOfSpeech.VerbGodanM])
    (h2 : reading_permutations e = [(some (0, "飲む"), (0, "のむ"))]) :
    (∃ r ∈ conjugate e,
      r.2.1.inflections.getT (inflect [.Te]) = some ⟨"飲んで", "のんで"⟩ ∧
      r.2.1.inflections.getT (inflect [.Past]) = some ⟨"飲んだ", "のんだ"⟩ ∧
      r.2.1.inflections.getT (inflect [.Negative]) = some ⟨"飲まない", "のまない"⟩ ∧
      r.2.1.inflections.getT (inflect [.Polite]) = some ⟨"飲みます", "のみます"⟩ ∧
      r.2.1.inflections.getT (inflect [.Chau]) = some ⟨"飲んじゃう", "のんじゃう"⟩) ∧
    godan.MU.de = true ∧
    godan.U.de = false ∧
    (∃ r ∈ conjugate kauEntry,
      r.2.1.inflections.getT (inflect [.Chau]) = some ⟨"買っちゃう", "かっちゃう"⟩) := by
  refine ⟨?_, rfl, rfl, by decide⟩
  rw [conjugate_eq_flatMap, h1, h2]
  decide

/-- Witness for C3_nomu at the concrete 飲む entry. -/
theorem C3_nomu_witness :
    (∃ r ∈ conjugate nomuEntry,
      r.2.1.inflections.getT (inflect [.Te]) = some ⟨"飲んで", "のんで"⟩ ∧
      r.2.1.inflections.getT (inflect [.Past]) = some ⟨"飲んだ", "のんだ"⟩ ∧
      r.2.1.inflections.getT (inflect [.Negative]) = some ⟨"飲まない", "のまない"⟩ ∧
      r.2.1.inflections.getT (inflect [.Polite]) = some ⟨"飲みます", "のみます"⟩ ∧
      r.2.1.inflections.getT (inflect [.Chau]) = some ⟨"飲んじゃう", "のんじゃう"⟩) ∧
    godan.MU.de = true ∧
    godan.U.de = false ∧
    (∃ r ∈ conjugate kauEntry,
      r.2.1.inflections.getT (inflect [.Chau]) = some ⟨"買っちゃう", "かっちゃう"⟩) :=
  C3_nomu nomuEntry (by decide) (by decide)

/-- Claim C4: for an entry whose pos set is exactly AdjectiveIx with the
single surface いい, the table maps Past to よかった (so not いかった),
Negative to よくない, and the past-negative cells verbatim to よなかった
and よなかったです. -/
theorem C4_ii (e : Entry)
    (h1 : parts_of_speech e = [PartOfSpeech.AdjectiveIx])
    (h2 : reading_permutations e = [(none, (0, "いい"))]) :
    ∃ r ∈ conjugate e,
      r.2.1.inflections.getT (inflect [.Past]) = some ⟨"よかった", "よかった"⟩ ∧
      r.2.1.inflections.getT (inflect [.Past]) ≠ some ⟨"いかった", "いかった"⟩ ∧
      r.2.1.inflections.getT (inflect [.Negative]) = some ⟨"よくない", "よくない"⟩ ∧
      r.2.1.inflections.getT (inflect [.Past, .Negative])
          = some ⟨"よなかった", "よなかった"⟩ ∧
      r.2.1.inflections.getT (inflect [.Past, .Negative, .Polite])
          = some ⟨"よなかったです", "よなかったです"⟩ := by
  rw [conjugate_eq_flatMap, h1, h2]
  decide

/-- Witness for C4_ii at the concrete いい entry. -/
theorem C4_ii_witness :
    ∃ r ∈ conjugate iiEntry,
      r.2.1.inflections.getT (inflect [.Past]) = some ⟨"よかった", "よかった"⟩ ∧
      r.2.1.inflections.getT (inflect [.Past]) ≠ some ⟨"いかった", "いかった"⟩ ∧
      r.2.1.inflections.getT (inflect [.Negative]) = some ⟨"よくない", "よくない"⟩ ∧
      r.2.1.inflections.getT (inflect [.Past, .Negative])
          = some ⟨"よなかった", "よなかった"⟩ ∧
      r.2.1.inflections.getT (inflect [.Past, .Negative, .Polite])
          = some ⟨"よなかったです", "よなかったです"⟩ :=
  C4_ii iiEntry (by decide) (by decide)

/-- Claim C5: a (Some kanji, reading) pair is in the reading-permutation
list exactly when no_kanji is false and the reading's restrict list is
empty or contains that kanji form; an entry without kanji elements yields
exactly one (none, reading) pair per reading element, in order. -/
theorem C5_reading_permutations (entry : Entry) :
    (∀ (ki ri : Nat) (ke : KanjiElement) (re : ReadingElement),
        entry.kanji_elements[ki]? = some ke →
        entry.reading_elements[ri]? = some re →
        (((some (ki, ke.text), (ri, re.text)) ∈ reading_permutations entry) ↔
          (re.no_kanji = false ∧ (re.restrict = [] ∨ ke.text ∈ re.restrict)))) ∧
    (entry.kanji_elements = [] →
      reading_permutations entry
        = entry.reading_elements.enum.map (fun p => (none, (p.1, p.2.text)))) :=
  ⟨fun ki ri ke re hk hr => mem_reading_permutations entry ki ri ke re hk hr,
   reading_permutations_no_kanji entry⟩

/-- Witness for C5_reading_permutations at the concrete permEntry, for an
unrestricted reading and a restricted one. -/
theorem C5_witness :
    (((some (0, "食べる"), (0, "たべる")) ∈ reading_permutations permEntry) ↔
      (false = false ∧ (([] : List String) = [] ∨ "食べる" ∈ ([] : List String)))) ∧
    (((some (0, "食べる"), (1, "くう")) ∈ reading_permutations permEntry) ↔
      (false = false ∧
        ((["食う"] : List String) = [] ∨ "食べる" ∈ (["食う"] : List String)))) :=
  ⟨(C5_reading_permutations permEntry).1 0 0 ⟨"食べる"⟩ ⟨"たべる", false, []⟩ rfl rfl,
   (C5_reading_permutations permEntry).1 0 1 ⟨"食べる"⟩ ⟨"くう", false, ["食う"]⟩ rfl rfl⟩

/-- Claim C6: an entry whose aggregated pos set contains no supported
inflectable class produces the empty record list; the return type carries
no error case, so nothing is signalled. -/
theorem C6_unsupported_empty (entry : Entry)
    (h : ∀ p ∈ parts_of_speech entry, supportedPos p = false) :
    conjugate entry = [] := by
  have hnone : ∀ p, supportedPos p = false → ∀ pr, conjugateOne p pr = none := by
    intro p hp pr
    cases p <;> first | rfl | simp [supportedPos] at hp
  rw [conjugate_eq_flatMap]
  generalize hps : parts_of_speech entry = ps at h
  clear hps
  induction ps with
  | nil => rfl
  | cons p ps ih =>
    rw [List.flatMap_cons,
      List.filterMap_eq_nil_iff.mpr
        (fun pr _ => hnone p (h p (List.mem_cons_self _ _)) pr),
      List.nil_append]
    exact ih (fun q hq => h q (List.mem_cons_of_mem _ hq))

/-- Witness for C6_unsupported_empty at the concrete noun entry. -/
theorem C6_witness : conjugate nounEntry = [] :=
  C6_unsupported_empty nounEntry (by decide)

/-- Claim C7: conjugated as VerbIchidan only, the output is exactly the
per-permutation filter of the permutation list, and a permutation yields a
record exactly when both its kanji surface (falling back to the reading)
and its reading surface end in る — others are skipped, the rest still
contribute. -/
theorem C7_ichidan_skip (entry : Entry)
    (h : parts_of_speech entry = [PartOfSpeech.VerbIchidan]) :
    conjugate entry
      = (reading_permutations entry).filterMap (conjugateOne .VerbIchidan) ∧
    ∀ pr ∈ reading_permutations entry,
      (conjugateOne PartOfSpeech.VerbIchidan pr).isSome
        = (endsWithStr (pr.1.getD pr.2).2 "る" && endsWithStr pr.2.2 "る") := by
  constructor
  · rw [conjugate_eq_flatMap, h]
    simp [List.flatMap_cons]
  · intro pr _
    rcases Bool.eq_false_or_eq_true (endsWithStr (pr.1.getD pr.2).2 "る")
        with e1 | e1 <;>
      rcases Bool.eq_false_or_eq_true (endsWithStr pr.2.2 "る") with e2 | e2 <;>
        simp [conjugateOne, conjugateBase, stripSuffix, e1, e2]

/-- Witness for C7_ichidan_skip at an entry with one well-formed and one
ill-formed reading. -/
theorem C7_witness :
    (conjugate c7Entry
       = (reading_permutations c7Entry).filterMap (conjugateOne .VerbIchidan) ∧
     ∀ pr ∈ reading_permutations c7Entry,
       (conjugateOne PartOfSpeech.VerbIchidan pr).isSome
         = (endsWithStr (pr.1.getD pr.2).2 "る" && endsWithStr pr.2.2 "る")) :=
  C7_ichidan_skip c7Entry (by decide)

/-- Claim C8: the code is wrong where the claim says the missing-slot error
names the missing field — on Close with the `ty` slot (attribute r_type)
still empty, the kanjidic2 Reading builder reports the literal message
"missing `cp_type`", the field name of a different element; the other
behaviors the claim describes (missing text, a second Text being an
unsupported-event error carrying the event) hold as stated. -/
theorem C8_reading_missing_ty :
    (Kanjidic2.Builder.poll ⟨some "ほん", none⟩ Output.Close
      = Except.error (BuildError.missing "missing `cp_type`")) ∧
    (Jmdict.Builder.poll ⟨none, none⟩ Output.Close
      = Except.error (BuildError.missing "missing text")) ∧
    (Kanjidic2.Builder.poll ⟨some "ほん", none⟩ (Output.Text "ひら")
      = Except.error (BuildError.unsupported (Output.Text "ひら"))) ∧
    (Jmdict.Builder.poll ⟨some "ぶん", none⟩ (Output.Text "ぶん")
      = Except.error (BuildError.unsupported (Output.Text "ぶん"))) :=
  ⟨rfl, rfl, rfl, rfl⟩

/-- Claim C9, amended: conjugate is a pure function — equal entries give
equal outputs — and the record order is the permutation input order within
each part of speech, the parts of speech themselves iterated in the fixed
enum declaration order of the aggregated set (not the order in which the
senses list them). -/
theorem C9_deterministic_enum_order (e1 e2 : Entry) (h : e1 = e2) :
    conjugate e1 = conjugate e2 ∧
    conjugate e1 = (parts_of_speech e1).flatMap (fun pos =>
      (reading_permutations e1).filterMap (conjugateOne pos)) ∧
    (parts_of_speech e1).Pairwise (fun a b => a.pidx < b.pidx) :=
  ⟨by rw [h], conjugate_eq_flatMap e1,
   List.Pairwise.filter _
     (by decide : PartOfSpeech.all.Pairwise (fun a b => a.pidx < b.pidx))⟩

/-- Witness for C9_deterministic_enum_order at the concrete mixed entry. -/
theorem C9_witness :
    conjugate mixedEntry = conjugate mixedEntry ∧
    conjugate mixedEntry = (parts_of_speech mixedEntry).flatMap (fun pos =>
      (reading_permutations mixedEntry).filterMap (conjugateOne pos)) ∧
    (parts_of_speech mixedEntry).Pairwise (fun a b => a.pidx < b.pidx) :=
  C9_deterministic_enum_order mixedEntry mixedEntry rfl

/-- Claim C9 as stated is false on the code: for an entry whose senses list
AdjectiveNa before VerbIchidan, the records do not follow the input order
of parts of speech — the verb records come first, in enum order. -/
theorem C9_counterexample :
    (conjugate mixedEntry).map (fun r => r.2.2)
      ≠ (conjugateInputOrder mixedEntry).map (fun r => r.2.2) := by
  decide

/-- Claim C10: in every table produced by conjugate, a key containing one
of the auxiliary-chain features TeIru, TeAru, TeIku, TeShimau, TeOku or
TeKuru also contains Te; a key with an auxiliary feature but without Te
never occurs. -/
theorem C10_aux_implies_te (entry : Entry)
    (out : Reading × Inflections × Kind) (hrec : out ∈ conjugate entry)
    (kv : InflSet × Fragments) (hkv : kv ∈ out.2.1.inflections)
    (a : Infl) (ha : a ∈ auxInfls) (hak : InflSet.mem kv.1 a = true) :
    InflSet.mem kv.1 Infl.Te = true := by
  rw [conjugate_eq_flatMap] at hrec
  obtain ⟨pos, hpos, hmem⟩ := List.mem_flatMap.mp hrec
  obtain ⟨pr, hpr, hone⟩ := List.mem_filterMap.mp hmem
  have hg := goodTable_conjugateOne pos pr out hone
  have hk := List.all_eq_true.mp (hg kv hkv) a ha
  rw [hak] at hk
  simpa using hk

/-- Witness for C10_aux_implies_te at the 食べる entry's short te-iru key. -/
theorem C10_witness :
    InflSet.mem (inflect [.Te, .TeIru, .Short]) Infl.Te = true :=
  C10_aux_implies_te tabeEntry
    ((conjugate tabeEntry).head (by decide))
    (List.head_mem _)
    (inflect [.Te, .TeIru, .Short], ⟨"食べてる", "食べてる"⟩)
    (by decide)
    Infl.TeIru (by decide) (by decide)
